import Mathlib

/-!
Shallow embedding of the image-formats-support browser detector
(`detectImageFormats`, `callbackIfEnd`, `detectImageFormatsDefault`).

The TypeScript source dispatches, for each enabled format, a deferred decode
probe via the timer facility, and for each disabled format it synchronously
runs the aggregator check `callbackIfEnd`.  Each dispatched probe eventually
settles through its load/error handler, records a boolean verdict in the
shared result object and runs the aggregator check again.  The embedding
makes the event-loop choices explicit: a `DetectionSchedule` supplies the
clock reading observed at every aggregator check together with the order and
the outcomes of the probe settlements, which the platform runs strictly
after the dispatching call has returned and one at a time.
-/

/-- The three probed image formats. -/
inductive ImageFormat
  | avif
  | webp
  | jxl
deriving DecidableEq, Fintype

/-- Caller-facing config (`ImageFormatConfig` in the source): every field is
optional; an absent field is `none`. -/
structure ImageFormatConfig where
  avif : Option Bool
  webp : Option Bool
  jxl : Option Bool
  delay : Option Int
deriving DecidableEq

/-- Resolved config (`ImageFormatFullConfig` in the source). -/
structure ImageFormatFullConfig where
  avif : Bool
  webp : Bool
  jxl : Bool
  delay : Int
deriving DecidableEq

/-- Detection result (`ImageFormatResult` in the source): each format field
is `none` while unknown, and `time` holds elapsed milliseconds. -/
structure ImageFormatResult where
  avif : Option Bool
  webp : Option Bool
  jxl : Option Bool
  time : Int
deriving DecidableEq

/-- Config defaulting performed at the top of `detectImageFormats`:
an omitted config yields all formats enabled with zero delay, and in a
present config an absent format flag defaults to `true` and an absent
delay to `0`. -/
def resolveConfig : Option ImageFormatConfig → ImageFormatFullConfig
  | some config =>
    { avif := config.avif.getD true
      webp := config.webp.getD true
      jxl := config.jxl.getD true
      delay := config.delay.getD 0 }
  | none => { avif := true, webp := true, jxl := true, delay := 0 }

/-- The freshly created result object: all verdicts unknown, `time = 0`. -/
def initialResult : ImageFormatResult :=
  { avif := none, webp := none, jxl := none, time := 0 }

/-- The flag of `config` that governs a given format. -/
def enabledFlag (config : ImageFormatFullConfig) : ImageFormat → Bool
  | .avif => config.avif
  | .webp => config.webp
  | .jxl => config.jxl

/-- The verdict field of `result` for a given format. -/
def resultField (result : ImageFormatResult) : ImageFormat → Option Bool
  | .avif => result.avif
  | .webp => result.webp
  | .jxl => result.jxl

/-- Write a probe verdict into the shared result object (the assignment in
an `onload`/`onerror` handler). -/
def setResultField (result : ImageFormatResult) : ImageFormat → Bool → ImageFormatResult
  | .avif, b => { result with avif := some b }
  | .webp, b => { result with webp := some b }
  | .jxl, b => { result with jxl := some b }

/-- The `time` update at the top of `callbackIfEnd`: `diff` replaces
`result.time` only when strictly larger. -/
def updateTime (result : ImageFormatResult) (diff : Int) : ImageFormatResult :=
  if diff > result.time then { result with time := diff } else result

/-- The firing guard of `callbackIfEnd`: every format whose flag is set has
a non-null verdict. -/
def allRequestedSettled (config : ImageFormatFullConfig) (result : ImageFormatResult) : Bool :=
  (!config.avif || result.avif.isSome) &&
  (!config.webp || result.webp.isSome) &&
  (!config.jxl || result.jxl.isSome)

/-- The aggregator check `callbackIfEnd`: reads the clock (`now`), raises
`result.time` to the elapsed maximum, and reports whether the callback was
invoked (with the updated result). -/
def callbackIfEnd (config : ImageFormatFullConfig) (result : ImageFormatResult)
    (start now : Int) : ImageFormatResult × Bool :=
  let updated := updateTime result (now - start)
  if allRequestedSettled config updated then (updated, true) else (updated, false)

/-- One probe settlement event: which format settled, the decode verdict
(`onload` gives `true`, `onerror` gives `false`), and the clock reading at
the aggregator check it triggers. -/
structure ProbeSettlement where
  fmt : ImageFormat
  outcome : Bool
  now : Int
deriving DecidableEq

/-- Environment choices for one detection run: the clock readings observed
at the three synchronous skip-checks (used only when the respective format
is disabled), and the probe settlements the event loop later delivers, in
order. -/
structure DetectionSchedule where
  avifSkipNow : Int
  webpSkipNow : Int
  jxlSkipNow : Int
  settlements : List ProbeSettlement
deriving DecidableEq

/-- One branch of the dispatching body of `detectImageFormats`: an enabled
format only schedules its probe (no immediate effect), a disabled format
synchronously runs `callbackIfEnd`.  Returns the updated result and the
list of results passed to the callback at this step. -/
def syncStep (config : ImageFormatFullConfig) (start : Int) (flag : Bool) (now : Int)
    (result : ImageFormatResult) : ImageFormatResult × List ImageFormatResult :=
  if flag then (result, [])
  else
    let step := callbackIfEnd config result start now
    (step.1, if step.2 then [step.1] else [])

/-- The synchronous part of `detectImageFormats`: the avif, webp and jxl
branches, in source order. -/
def syncPhase (config : ImageFormatFullConfig) (start : Int) (sched : DetectionSchedule)
    (result : ImageFormatResult) : ImageFormatResult × List ImageFormatResult :=
  let a := syncStep config start config.avif sched.avifSkipNow result
  let w := syncStep config start config.webp sched.webpSkipNow a.1
  let j := syncStep config start config.jxl sched.jxlSkipNow w.1
  (j.1, a.2 ++ w.2 ++ j.2)

/-- One probe settlement handler: record the verdict, then run
`callbackIfEnd`. -/
def settleStep (config : ImageFormatFullConfig) (start : Int) (result : ImageFormatResult)
    (s : ProbeSettlement) : ImageFormatResult × List ImageFormatResult :=
  let withOutcome := setResultField result s.fmt s.outcome
  let step := callbackIfEnd config withOutcome start s.now
  (step.1, if step.2 then [step.1] else [])

/-- The asynchronous part of the run: the event loop delivers the probe
settlements one at a time, in order. -/
def settlePhase (config : ImageFormatFullConfig) (start : Int) :
    ImageFormatResult → List ProbeSettlement → ImageFormatResult × List ImageFormatResult
  | result, [] => (result, [])
  | result, s :: rest =>
    let first := settleStep config start result s
    let later := settlePhase config start first.1 rest
    (later.1, first.2 ++ later.2)

/-- Observable outcome of one detection run: the final state of the shared
result object, the results passed to the callback during the dispatching
call itself, and the results passed to the callback from settlement
handlers after the call returned. -/
structure DetectionRun where
  result : ImageFormatResult
  syncFired : List ImageFormatResult
  asyncFired : List ImageFormatResult
deriving DecidableEq

/-- A whole run of `detectImageFormats` under a given schedule: resolve the
config, create the fresh result, run the dispatching body synchronously,
then let the scheduled probes settle. -/
def detectImageFormats (config : Option ImageFormatConfig) (start : Int)
    (sched : DetectionSchedule) : DetectionRun :=
  let fullConfig := resolveConfig config
  let sync := syncPhase fullConfig start sched initialResult
  let settled := settlePhase fullConfig start sync.1 sched.settlements
  { result := settled.1, syncFired := sync.2, asyncFired := settled.2 }

/-- Whether at least one format flag is set. -/
def someEnabled (config : ImageFormatFullConfig) : Bool :=
  config.avif || config.webp || config.jxl

/-- A schedule the platform can actually produce for `config`: only enabled
formats were given probes, a probe settles at most once, and every enabled
probe does settle (no hung decode). -/
def validSchedule (config : ImageFormatFullConfig) (sched : DetectionSchedule) : Prop :=
  (∀ s ∈ sched.settlements, enabledFlag config s.fmt = true) ∧
  (sched.settlements.map ProbeSettlement.fmt).Nodup ∧
  (∀ f, enabledFlag config f = true → f ∈ sched.settlements.map ProbeSettlement.fmt)

/-- The `classList.add` of the DOM: appends a class unless already
present. -/
def classListAdd (classes : List String) (cls : String) : List String :=
  if cls ∈ classes then classes else classes ++ [cls]

/-- One guarded block of the completion handler of
`detectImageFormatsDefault`: when the format has a definite verdict, add
the corresponding marker class to the body class list; when the verdict is
unknown, leave the class list alone. -/
def addFormatClass (classes : List String) (field : Option Bool)
    (hasCls noCls : String) : List String :=
  match field with
  | none => classes
  | some b => classListAdd classes (if b then hasCls else noCls)

/-- The completion handler of `detectImageFormatsDefault`, acting on the
class list of the document body: the avif, webp and jxl blocks, in source
order. -/
def detectImageFormatsDefaultCallback (classes : List String)
    (result : ImageFormatResult) : List String :=
  addFormatClass
    (addFormatClass
      (addFormatClass classes result.avif ("has-avif") ("no-avif"))
      result.webp ("has-webp") ("no-webp"))
    result.jxl ("has-jxl") ("no-jxl")

/-- The six marker classes `detectImageFormatsDefault` may add. -/
def markerClasses : List String :=
  ["has-avif", "no-avif", "has-webp", "no-webp", "has-jxl", "no-jxl"]

/-- Spec-side description of what the handler adds for one format field:
nothing when unknown, exactly one of the two marker classes otherwise. -/
def formatClasses (field : Option Bool) (hasCls noCls : String) : List String :=
  match field with
  | none => []
  | some true => [hasCls]
  | some false => [noCls]

/-- The `time` update step of `callbackIfEnd`, isolated: the running value
is replaced by the new measurement only when strictly larger. -/
def maxStep (t d : Int) : Int := if d > t then d else t

/-- The value of `result.time` after a sequence of aggregator checks with
the given elapsed-time measurements, starting from the fresh result's 0. -/
def aggregatedTime (diffs : List Int) : Int := diffs.foldl maxStep 0

/-- The elapsed-time measurements (`now - start`) taken by the aggregator
checks of a run, in order: one per disabled format during the dispatching
call, then one per probe settlement. -/
def checkDiffs (config : ImageFormatFullConfig) (start : Int)
    (sched : DetectionSchedule) : List Int :=
  ((if config.avif then [] else [sched.avifSkipNow - start]) ++
   (if config.webp then [] else [sched.webpSkipNow - start]) ++
   (if config.jxl then [] else [sched.jxlSkipNow - start])) ++
  sched.settlements.map (fun s => s.now - start)

/-- Fixture: a config probing only WebP, with a 5 ms delay. -/
def webpOnlyConfig : Option ImageFormatConfig :=
  some { avif := some false, webp := some true, jxl := some false, delay := some 5 }

/-- Fixture: a schedule for `webpOnlyConfig`: the two skip-checks observe
elapsed times 1 and 2, and the WebP probe settles successfully 9 ms in. -/
def webpOnlySchedule : DetectionSchedule :=
  { avifSkipNow := 1
    webpSkipNow := 0
    jxlSkipNow := 2
    settlements := [{ fmt := .webp, outcome := true, now := 9 }] }

lemma updateTime_avif (r : ImageFormatResult) (d : Int) : (updateTime r d).avif = r.avif := by
  unfold updateTime; split <;> rfl

lemma updateTime_webp (r : ImageFormatResult) (d : Int) : (updateTime r d).webp = r.webp := by
  unfold updateTime; split <;> rfl

lemma updateTime_jxl (r : ImageFormatResult) (d : Int) : (updateTime r d).jxl = r.jxl := by
  unfold updateTime; split <;> rfl

lemma updateTime_time (r : ImageFormatResult) (d : Int) :
    (updateTime r d).time = maxStep r.time d := by
  unfold updateTime maxStep; split <;> rfl

lemma resultField_updateTime (r : ImageFormatResult) (d : Int) (f : ImageFormat) :
    resultField (updateTime r d) f = resultField r f := by
  cases f <;> simp [resultField, updateTime_avif, updateTime_webp, updateTime_jxl]

lemma allRequestedSettled_updateTime (c : ImageFormatFullConfig) (r : ImageFormatResult) (d : Int) :
    allRequestedSettled c (updateTime r d) = allRequestedSettled c r := by
  simp [allRequestedSettled, updateTime_avif, updateTime_webp, updateTime_jxl]

lemma callbackIfEnd_eq (c : ImageFormatFullConfig) (r : ImageFormatResult) (start now : Int) :
    callbackIfEnd c r start now
      = (updateTime r (now - start), allRequestedSettled c r) := by
  simp only [callbackIfEnd]
  split <;> rename_i h <;> rw [allRequestedSettled_updateTime] at h <;> simp [h]

lemma forall_format (p : ImageFormat → Prop) :
    (∀ f, p f) ↔ p .avif ∧ p .webp ∧ p .jxl := by
  constructor
  · intro h; exact ⟨h _, h _, h _⟩
  · rintro ⟨h1, h2, h3⟩ f; cases f <;> assumption

lemma allRequestedSettled_iff (c : ImageFormatFullConfig) (r : ImageFormatResult) :
    allRequestedSettled c r = true ↔
      ∀ f, enabledFlag c f = true → (resultField r f).isSome = true := by
  obtain ⟨a, w, j, d⟩ := c
  rw [forall_format]
  cases a <;> cases w <;> cases j <;>
    simp [allRequestedSettled, enabledFlag, resultField, and_assoc]

lemma allRequestedSettled_false_of_pending (c : ImageFormatFullConfig) (r : ImageFormatResult)
    (f : ImageFormat) (hf : enabledFlag c f = true) (hnone : resultField r f = none) :
    allRequestedSettled c r = false := by
  by_contra h
  rw [Bool.not_eq_false, allRequestedSettled_iff] at h
  have := h f hf
  rw [hnone] at this
  cases this

lemma syncStep_fst_field (c : ImageFormatFullConfig) (start : Int) (flag : Bool) (now : Int)
    (r : ImageFormatResult) (f : ImageFormat) :
    resultField (syncStep c start flag now r).1 f = resultField r f := by
  cases flag <;> simp [syncStep, callbackIfEnd_eq, resultField_updateTime]

lemma syncStep_snd (c : ImageFormatFullConfig) (start : Int) (flag : Bool) (now : Int)
    (r : ImageFormatResult) :
    (syncStep c start flag now r).2
      = if flag then []
        else if allRequestedSettled c r then [updateTime r (now - start)] else [] := by
  cases flag <;> simp [syncStep, callbackIfEnd_eq]

lemma allRequestedSettled_congr (c : ImageFormatFullConfig) (r r' : ImageFormatResult)
    (h : ∀ f, resultField r f = resultField r' f) :
    allRequestedSettled c r = allRequestedSettled c r' := by
  have ha := h .avif
  have hw := h .webp
  have hj := h .jxl
  simp only [resultField] at ha hw hj
  simp [allRequestedSettled, ha, hw, hj]

lemma allRequestedSettled_syncStep (c : ImageFormatFullConfig) (start : Int) (flag : Bool)
    (now : Int) (r : ImageFormatResult) :
    allRequestedSettled c (syncStep c start flag now r).1 = allRequestedSettled c r :=
  allRequestedSettled_congr c _ r (fun f => syncStep_fst_field c start flag now r f)

lemma syncStep_snd_no_fire (c : ImageFormatFullConfig) (start : Int) (flag : Bool) (now : Int)
    (r : ImageFormatResult) (h : allRequestedSettled c r = false) :
    (syncStep c start flag now r).2 = [] := by
  rw [syncStep_snd, h]
  cases flag <;> simp

lemma syncPhase_snd_no_fire (c : ImageFormatFullConfig) (start : Int)
    (sched : DetectionSchedule) (r : ImageFormatResult)
    (h : allRequestedSettled c r = false) :
    (syncPhase c start sched r).2 = [] := by
  have h1 : allRequestedSettled c (syncStep c start c.avif sched.avifSkipNow r).1 = false := by
    rw [allRequestedSettled_syncStep]; exact h
  have h2 : allRequestedSettled c
      (syncStep c start c.webp sched.webpSkipNow
        (syncStep c start c.avif sched.avifSkipNow r).1).1 = false := by
    rw [allRequestedSettled_syncStep]; exact h1
  show (syncStep c start c.avif sched.avifSkipNow r).2
      ++ (syncStep c start c.webp sched.webpSkipNow
            (syncStep c start c.avif sched.avifSkipNow r).1).2
      ++ (syncStep c start c.jxl sched.jxlSkipNow
            (syncStep c start c.webp sched.webpSkipNow
              (syncStep c start c.avif sched.avifSkipNow r).1).1).2 = []
  rw [syncStep_snd_no_fire c start c.avif sched.avifSkipNow r h,
      syncStep_snd_no_fire _ _ _ _ _ h1,
      syncStep_snd_no_fire _ _ _ _ _ h2]
  rfl

lemma allRequestedSettled_all_disabled (c : ImageFormatFullConfig) (r : ImageFormatResult)
    (h : someEnabled c = false) : allRequestedSettled c r = true := by
  simp only [someEnabled, Bool.or_eq_false_iff] at h
  simp [allRequestedSettled, h.1.1, h.1.2, h.2]

lemma syncPhase_snd_all_disabled (c : ImageFormatFullConfig) (start : Int)
    (sched : DetectionSchedule) (r : ImageFormatResult)
    (h : someEnabled c = false) :
    (syncPhase c start sched r).2.length = 3 := by
  have hf : c.avif = false ∧ c.webp = false ∧ c.jxl = false := by
    simp only [someEnabled, Bool.or_eq_false_iff] at h
    exact ⟨h.1.1, h.1.2, h.2⟩
  have fire : ∀ (flag : Bool) (now : Int) (r' : ImageFormatResult), flag = false →
      (syncStep c start flag now r').2 = [updateTime r' (now - start)] := by
    intro flag now r' hflag
    subst hflag
    rw [syncStep_snd]
    simp [allRequestedSettled_all_disabled c r' h]
  show ((syncStep c start c.avif sched.avifSkipNow r).2
      ++ (syncStep c start c.webp sched.webpSkipNow
            (syncStep c start c.avif sched.avifSkipNow r).1).2
      ++ (syncStep c start c.jxl sched.jxlSkipNow
            (syncStep c start c.webp sched.webpSkipNow
              (syncStep c start c.avif sched.avifSkipNow r).1).1).2).length = 3
  rw [fire c.avif _ _ hf.1, fire c.webp _ _ hf.2.1, fire c.jxl _ _ hf.2.2]
  rfl

lemma setResultField_time (r : ImageFormatResult) (f : ImageFormat) (b : Bool) :
    (setResultField r f b).time = r.time := by
  cases f <;> rfl

lemma resultField_setResultField_self (r : ImageFormatResult) (f : ImageFormat) (b : Bool) :
    resultField (setResultField r f b) f = some b := by
  cases f <;> rfl

lemma resultField_setResultField_other (r : ImageFormatResult) (f g : ImageFormat) (b : Bool)
    (h : f ≠ g) : resultField (setResultField r g b) f = resultField r f := by
  cases f <;> cases g <;> first | rfl | exact absurd rfl h

lemma isSome_setResultField_of_isSome (r : ImageFormatResult) (f g : ImageFormat) (b : Bool)
    (h : (resultField r f).isSome = true) :
    (resultField (setResultField r g b) f).isSome = true := by
  by_cases hfg : f = g
  · subst hfg; rw [resultField_setResultField_self]; rfl
  · rw [resultField_setResultField_other r f g b hfg]; exact h

lemma settleStep_eq (c : ImageFormatFullConfig) (start : Int) (r : ImageFormatResult)
    (s : ProbeSettlement) :
    settleStep c start r s
      = (updateTime (setResultField r s.fmt s.outcome) (s.now - start),
         if allRequestedSettled c (setResultField r s.fmt s.outcome)
           then [updateTime (setResultField r s.fmt s.outcome) (s.now - start)] else []) := by
  simp [settleStep, callbackIfEnd_eq]

lemma settlePhase_cons (c : ImageFormatFullConfig) (start : Int) (r : ImageFormatResult)
    (s : ProbeSettlement) (rest : List ProbeSettlement) :
    settlePhase c start r (s :: rest)
      = ((settlePhase c start (settleStep c start r s).1 rest).1,
         (settleStep c start r s).2 ++ (settlePhase c start (settleStep c start r s).1 rest).2) := rfl

lemma settlePhase_fires_once (c : ImageFormatFullConfig) (start : Int) :
    ∀ (sts : List ProbeSettlement) (r : ImageFormatResult), sts ≠ [] →
      (∀ s ∈ sts, enabledFlag c s.fmt = true) →
      (∀ s ∈ sts, resultField r s.fmt = none) →
      (sts.map ProbeSettlement.fmt).Nodup →
      (∀ f, enabledFlag c f = true → resultField r f = none → f ∈ sts.map ProbeSettlement.fmt) →
      (settlePhase c start r sts).2.length = 1 := by
  intro sts
  induction sts with
  | nil => intro r hne _ _ _ _; exact absurd rfl hne
  | cons s rest ih =>
    intro r _ hen hnone hnodup hcover
    rcases hrest : rest with _ | ⟨s2, rest'⟩
    · subst hrest
      have hall : allRequestedSettled c (setResultField r s.fmt s.outcome) = true := by
        rw [allRequestedSettled_iff]
        intro f hf
        cases hres : resultField r f with
        | some x =>
          exact isSome_setResultField_of_isSome r f s.fmt s.outcome (by rw [hres]; rfl)
        | none =>
          have hmem := hcover f hf hres
          simp only [List.map_cons, List.map_nil, List.mem_singleton] at hmem
          subst hmem
          rw [resultField_setResultField_self]; rfl
      rw [settlePhase_cons, settleStep_eq]
      simp [hall, settlePhase]
    · subst hrest
      have hs2mem : s2 ∈ s :: s2 :: rest' := by simp
      have hsnot : s.fmt ∉ List.map ProbeSettlement.fmt (s2 :: rest') := by
        rw [List.map_cons, List.nodup_cons] at hnodup
        exact hnodup.1
      have hs2ne : s2.fmt ≠ s.fmt := by
        intro hEq
        exact hsnot (by rw [← hEq]; simp)
      have hfirst_nofire : allRequestedSettled c (setResultField r s.fmt s.outcome) = false := by
        apply allRequestedSettled_false_of_pending c _ s2.fmt
        · exact hen s2 hs2mem
        · rw [resultField_setResultField_other r s2.fmt s.fmt s.outcome hs2ne]
          exact hnone s2 hs2mem
      have hfst : (settleStep c start r s).1
          = updateTime (setResultField r s.fmt s.outcome) (s.now - start) := by
        rw [settleStep_eq]
      have hsnd : (settleStep c start r s).2 = [] := by
        rw [settleStep_eq]
        simp [hfirst_nofire]
      rw [settlePhase_cons, hsnd, hfst]
      simp only [List.nil_append]
      apply ih
      · simp
      · intro x hx; exact hen x (List.mem_cons_of_mem s hx)
      · intro x hx
        rw [resultField_updateTime]
        have hxne : x.fmt ≠ s.fmt := by
          intro hEq
          exact hsnot (by rw [← hEq]; exact List.mem_map_of_mem ProbeSettlement.fmt hx)
        rw [resultField_setResultField_other r x.fmt s.fmt s.outcome hxne]
        exact hnone x (List.mem_cons_of_mem s hx)
      · rw [List.map_cons, List.nodup_cons] at hnodup
        exact hnodup.2
      · intro f hf hfnone
        rw [resultField_updateTime] at hfnone
        have hfne : f ≠ s.fmt := by
          intro hEq
          rw [hEq, resultField_setResultField_self] at hfnone
          cases hfnone
        rw [resultField_setResultField_other r f s.fmt s.outcome hfne] at hfnone
        have := hcover f hf hfnone
        rw [List.map_cons] at this
        rcases List.mem_cons.mp this with hEq | hmem
        · exact absurd hEq hfne
        · exact hmem

lemma syncStep_snd_mem (c : ImageFormatFullConfig) (start : Int) (flag : Bool) (now : Int)
    (r : ImageFormatResult) (x : ImageFormatResult)
    (hx : x ∈ (syncStep c start flag now r).2) :
    x = updateTime r (now - start) ∧ allRequestedSettled c r = true := by
  rw [syncStep_snd] at hx
  cases flag with
  | true => simp at hx
  | false =>
    cases h : allRequestedSettled c r with
    | false => simp [h] at hx
    | true =>
      simp [h] at hx
      exact ⟨hx, rfl⟩

lemma syncPhase_snd_eq (c : ImageFormatFullConfig) (start : Int) (sched : DetectionSchedule)
    (r : ImageFormatResult) :
    (syncPhase c start sched r).2
      = (syncStep c start c.avif sched.avifSkipNow r).2
        ++ (syncStep c start c.webp sched.webpSkipNow
              (syncStep c start c.avif sched.avifSkipNow r).1).2
        ++ (syncStep c start c.jxl sched.jxlSkipNow
              (syncStep c start c.webp sched.webpSkipNow
                (syncStep c start c.avif sched.avifSkipNow r).1).1).2 := rfl

lemma syncPhase_fst_eq (c : ImageFormatFullConfig) (start : Int) (sched : DetectionSchedule)
    (r : ImageFormatResult) :
    (syncPhase c start sched r).1
      = (syncStep c start c.jxl sched.jxlSkipNow
          (syncStep c start c.webp sched.webpSkipNow
            (syncStep c start c.avif sched.avifSkipNow r).1).1).1 := rfl

lemma syncPhase_fst_field (c : ImageFormatFullConfig) (start : Int) (sched : DetectionSchedule)
    (r : ImageFormatResult) (f : ImageFormat) :
    resultField (syncPhase c start sched r).1 f = resultField r f := by
  rw [syncPhase_fst_eq, syncStep_fst_field, syncStep_fst_field, syncStep_fst_field]

lemma syncPhase_snd_mem (c : ImageFormatFullConfig) (start : Int) (sched : DetectionSchedule)
    (r : ImageFormatResult) (x : ImageFormatResult)
    (hx : x ∈ (syncPhase c start sched r).2) :
    (∀ f, resultField x f = resultField r f) ∧ allRequestedSettled c x = true := by
  rw [syncPhase_snd_eq] at hx
  rcases List.mem_append.mp hx with h1 | h1
  · rcases List.mem_append.mp h1 with h2 | h2
    · obtain ⟨hx1, hx2⟩ := syncStep_snd_mem _ _ _ _ _ _ h2
      subst hx1
      refine ⟨fun f => resultField_updateTime r _ f, ?_⟩
      rw [allRequestedSettled_updateTime]; exact hx2
    · obtain ⟨hx1, hx2⟩ := syncStep_snd_mem _ _ _ _ _ _ h2
      subst hx1
      refine ⟨fun f => ?_, ?_⟩
      · rw [resultField_updateTime, syncStep_fst_field]
      · rw [allRequestedSettled_updateTime, allRequestedSettled_syncStep] at *
        exact hx2
  · obtain ⟨hx1, hx2⟩ := syncStep_snd_mem _ _ _ _ _ _ h1
    subst hx1
    refine ⟨fun f => ?_, ?_⟩
    · rw [resultField_updateTime, syncStep_fst_field, syncStep_fst_field]
    · rw [allRequestedSettled_updateTime, allRequestedSettled_syncStep,
          allRequestedSettled_syncStep] at *
      exact hx2

lemma settlePhase_snd_settled (c : ImageFormatFullConfig) (start : Int) :
    ∀ (sts : List ProbeSettlement) (r x : ImageFormatResult),
      x ∈ (settlePhase c start r sts).2 → allRequestedSettled c x = true := by
  intro sts
  induction sts with
  | nil => intro r x hx; cases hx
  | cons s rest ih =>
    intro r x hx
    rw [settlePhase_cons] at hx
    rcases List.mem_append.mp hx with h | h
    · rw [settleStep_eq] at h
      cases hall : allRequestedSettled c (setResultField r s.fmt s.outcome) with
      | false => simp [hall] at h
      | true =>
        simp [hall] at h
        subst h
        rw [allRequestedSettled_updateTime]
        exact hall
    · exact ih _ x h

lemma settlePhase_fst_field_not_mem (c : ImageFormatFullConfig) (start : Int) :
    ∀ (sts : List ProbeSettlement) (r : ImageFormatResult) (f : ImageFormat),
      (∀ s ∈ sts, s.fmt ≠ f) →
      resultField (settlePhase c start r sts).1 f = resultField r f := by
  intro sts
  induction sts with
  | nil => intro r f _; rfl
  | cons s rest ih =>
    intro r f hne
    rw [settlePhase_cons]
    show resultField (settlePhase c start (settleStep c start r s).1 rest).1 f = _
    rw [ih _ f (fun x hx => hne x (List.mem_cons_of_mem s hx)), settleStep_eq]
    show resultField (updateTime (setResultField r s.fmt s.outcome) (s.now - start)) f = _
    rw [resultField_updateTime,
        resultField_setResultField_other r f s.fmt s.outcome
          (fun h => hne s (List.mem_cons_self s rest) (h ▸ rfl))]

lemma settlePhase_snd_field_not_mem (c : ImageFormatFullConfig) (start : Int) :
    ∀ (sts : List ProbeSettlement) (r : ImageFormatResult) (f : ImageFormat),
      (∀ s ∈ sts, s.fmt ≠ f) →
      ∀ x ∈ (settlePhase c start r sts).2, resultField x f = resultField r f := by
  intro sts
  induction sts with
  | nil => intro r f _ x hx; cases hx
  | cons s rest ih =>
    intro r f hne x hx
    rw [settlePhase_cons] at hx
    have hsne : s.fmt ≠ f := hne s (List.mem_cons_self s rest)
    rcases List.mem_append.mp hx with h | h
    · rw [settleStep_eq] at h
      cases hall : allRequestedSettled c (setResultField r s.fmt s.outcome) with
      | false => simp [hall] at h
      | true =>
        simp [hall] at h
        subst h
        rw [resultField_updateTime,
            resultField_setResultField_other r f s.fmt s.outcome (fun hEq => hsne (hEq ▸ rfl))]
    · have := ih (settleStep c start r s).1 f (fun y hy => hne y (List.mem_cons_of_mem s hy)) x h
      rw [this, settleStep_eq]
      show resultField (updateTime (setResultField r s.fmt s.outcome) (s.now - start)) f = _
      rw [resultField_updateTime,
          resultField_setResultField_other r f s.fmt s.outcome (fun hEq => hsne (hEq ▸ rfl))]

lemma le_maxStep_left (t d : Int) : t ≤ maxStep t d := by
  unfold maxStep; split <;> omega

lemma le_maxStep_right (t d : Int) : d ≤ maxStep t d := by
  unfold maxStep; split <;> omega

lemma foldl_maxStep_init_le (l : List Int) : ∀ t : Int, t ≤ l.foldl maxStep t := by
  induction l with
  | nil => intro t; exact le_refl t
  | cons d rest ih =>
    intro t
    rw [List.foldl_cons]
    exact le_trans (le_maxStep_left t d) (ih (maxStep t d))

lemma foldl_maxStep_mem_or_init (l : List Int) : ∀ t : Int,
    l.foldl maxStep t = t ∨ l.foldl maxStep t ∈ l := by
  induction l with
  | nil => intro t; left; rfl
  | cons d rest ih =>
    intro t
    rw [List.foldl_cons]
    rcases ih (maxStep t d) with h | h
    · rw [h]
      unfold maxStep
      split
      · right; exact List.mem_cons_self d rest
      · left; rfl
    · right; exact List.mem_cons_of_mem d h

lemma foldl_maxStep_ub (l : List Int) : ∀ (t d : Int), d ∈ l → d ≤ l.foldl maxStep t := by
  induction l with
  | nil => intro t d hd; cases hd
  | cons e rest ih =>
    intro t d hd
    rw [List.foldl_cons]
    rcases List.mem_cons.mp hd with h | h
    · subst h
      exact le_trans (le_maxStep_right t d) (foldl_maxStep_init_le rest _)
    · exact ih _ d h

lemma aggregatedTime_nonneg (l : List Int) : 0 ≤ aggregatedTime l :=
  foldl_maxStep_init_le l 0

lemma aggregatedTime_mem (l : List Int) (hne : l ≠ []) (hnn : ∀ d ∈ l, 0 ≤ d) :
    aggregatedTime l ∈ l := by
  rcases foldl_maxStep_mem_or_init l 0 with h | h
  · rcases l with _ | ⟨e, rest⟩
    · exact absurd rfl hne
    · have h1 : e ≤ aggregatedTime (e :: rest) :=
        foldl_maxStep_ub _ 0 e (List.mem_cons_self e rest)
      have h2 : 0 ≤ e := hnn e (List.mem_cons_self e rest)
      unfold aggregatedTime at h1 ⊢
      rw [h] at h1
      have he : e = 0 := le_antisymm h1 h2
      rw [h, ← he]
      exact List.mem_cons_self e rest
  · exact h

lemma aggregatedTime_take_mono (l : List Int) (n : Nat) :
    aggregatedTime (l.take n) ≤ aggregatedTime (l.take (n + 1)) := by
  rw [List.take_succ]
  unfold aggregatedTime
  rw [List.foldl_append]
  exact foldl_maxStep_init_le _ _

lemma syncStep_fst_time (c : ImageFormatFullConfig) (start : Int) (flag : Bool) (now : Int)
    (r : ImageFormatResult) :
    (syncStep c start flag now r).1.time
      = ((if flag then [] else [now - start]).foldl maxStep r.time) := by
  cases flag <;> simp [syncStep, callbackIfEnd_eq, updateTime_time]

lemma syncPhase_fst_time (c : ImageFormatFullConfig) (start : Int) (sched : DetectionSchedule)
    (r : ImageFormatResult) :
    (syncPhase c start sched r).1.time
      = (((if c.avif then [] else [sched.avifSkipNow - start]) ++
          (if c.webp then [] else [sched.webpSkipNow - start]) ++
          (if c.jxl then [] else [sched.jxlSkipNow - start]))).foldl maxStep r.time := by
  rw [syncPhase_fst_eq, syncStep_fst_time, syncStep_fst_time, syncStep_fst_time,
      List.foldl_append, List.foldl_append]

lemma settlePhase_fst_time (c : ImageFormatFullConfig) (start : Int) :
    ∀ (sts : List ProbeSettlement) (r : ImageFormatResult),
      (settlePhase c start r sts).1.time
        = (sts.map (fun s => s.now - start)).foldl maxStep r.time := by
  intro sts
  induction sts with
  | nil => intro r; rfl
  | cons s rest ih =>
    intro r
    rw [settlePhase_cons]
    show (settlePhase c start (settleStep c start r s).1 rest).1.time = _
    rw [ih, List.map_cons, List.foldl_cons, settleStep_eq]
    show (List.foldl maxStep (updateTime (setResultField r s.fmt s.outcome) (s.now - start)).time _) = _
    rw [updateTime_time, setResultField_time]

lemma detect_result_time (config : Option ImageFormatConfig) (start : Int)
    (sched : DetectionSchedule) :
    (detectImageFormats config start sched).result.time
      = aggregatedTime (checkDiffs (resolveConfig config) start sched) := by
  show (settlePhase (resolveConfig config) start
      (syncPhase (resolveConfig config) start sched initialResult).1 sched.settlements).1.time = _
  rw [settlePhase_fst_time, syncPhase_fst_time]
  unfold aggregatedTime checkDiffs
  simp only [List.foldl_append]
  rfl

lemma syncStep_fst_time_le (c : ImageFormatFullConfig) (start : Int) (flag : Bool) (now : Int)
    (r : ImageFormatResult) : r.time ≤ (syncStep c start flag now r).1.time := by
  rw [syncStep_fst_time]
  exact foldl_maxStep_init_le _ _

lemma syncStep_snd_time (c : ImageFormatFullConfig) (start : Int) (flag : Bool) (now : Int)
    (r : ImageFormatResult) (x : ImageFormatResult) (hx : x ∈ (syncStep c start flag now r).2) :
    r.time ≤ x.time := by
  obtain ⟨hx1, _⟩ := syncStep_snd_mem c start flag now r x hx
  subst hx1
  rw [updateTime_time]
  exact le_maxStep_left _ _

lemma syncPhase_snd_time (c : ImageFormatFullConfig) (start : Int) (sched : DetectionSchedule)
    (r : ImageFormatResult) (x : ImageFormatResult) (hx : x ∈ (syncPhase c start sched r).2) :
    r.time ≤ x.time := by
  rw [syncPhase_snd_eq] at hx
  rcases List.mem_append.mp hx with h1 | h1
  · rcases List.mem_append.mp h1 with h2 | h2
    · exact syncStep_snd_time _ _ _ _ _ _ h2
    · exact le_trans (syncStep_fst_time_le _ _ _ _ _) (syncStep_snd_time _ _ _ _ _ _ h2)
  · exact le_trans (syncStep_fst_time_le _ _ _ _ _)
      (le_trans (syncStep_fst_time_le _ _ _ _ _) (syncStep_snd_time _ _ _ _ _ _ h1))

lemma settlePhase_snd_time (c : ImageFormatFullConfig) (start : Int) :
    ∀ (sts : List ProbeSettlement) (r x : ImageFormatResult),
      x ∈ (settlePhase c start r sts).2 →
      r.time ≤ x.time ∧ ∃ s ∈ sts, s.now - start ≤ x.time := by
  intro sts
  induction sts with
  | nil => intro r x hx; cases hx
  | cons s rest ih =>
    intro r x hx
    rw [settlePhase_cons] at hx
    rcases List.mem_append.mp hx with h | h
    · rw [settleStep_eq] at h
      cases hall : allRequestedSettled c (setResultField r s.fmt s.outcome) with
      | false => simp [hall] at h
      | true =>
        simp [hall] at h
        subst h
        rw [updateTime_time, setResultField_time]
        exact ⟨le_maxStep_left _ _, s, List.mem_cons_self s rest, le_maxStep_right _ _⟩
    · obtain ⟨h1, s', hs', h2⟩ := ih (settleStep c start r s).1 x h
      have hstep : r.time ≤ (settleStep c start r s).1.time := by
        rw [settleStep_eq]
        show r.time ≤ (updateTime (setResultField r s.fmt s.outcome) (s.now - start)).time
        rw [updateTime_time, setResultField_time]
        exact le_maxStep_left _ _
      exact ⟨le_trans hstep h1, s', List.mem_cons_of_mem s hs', h2⟩

lemma detect_syncFired_eq (config : Option ImageFormatConfig) (start : Int)
    (sched : DetectionSchedule) :
    (detectImageFormats config start sched).syncFired
      = (syncPhase (resolveConfig config) start sched initialResult).2 := rfl

lemma detect_asyncFired_eq (config : Option ImageFormatConfig) (start : Int)
    (sched : DetectionSchedule) :
    (detectImageFormats config start sched).asyncFired
      = (settlePhase (resolveConfig config) start
          (syncPhase (resolveConfig config) start sched initialResult).1 sched.settlements).2 := rfl

lemma detect_result_eq (config : Option ImageFormatConfig) (start : Int)
    (sched : DetectionSchedule) :
    (detectImageFormats config start sched).result
      = (settlePhase (resolveConfig config) start
          (syncPhase (resolveConfig config) start sched initialResult).1 sched.settlements).1 := rfl

lemma resultField_initial (f : ImageFormat) : resultField initialResult f = none := by
  cases f <;> rfl

lemma allRequestedSettled_initial (c : ImageFormatFullConfig) (h : someEnabled c = true) :
    allRequestedSettled c initialResult = false := by
  simp only [someEnabled, Bool.or_eq_true] at h
  rcases h with (h | h) | h
  · exact allRequestedSettled_false_of_pending c _ .avif h (resultField_initial _)
  · exact allRequestedSettled_false_of_pending c _ .webp h (resultField_initial _)
  · exact allRequestedSettled_false_of_pending c _ .jxl h (resultField_initial _)

lemma exists_enabled_of_someEnabled (c : ImageFormatFullConfig) (h : someEnabled c = true) :
    ∃ f, enabledFlag c f = true := by
  simp only [someEnabled, Bool.or_eq_true] at h
  rcases h with (h | h) | h
  exacts [⟨.avif, h⟩, ⟨.webp, h⟩, ⟨.jxl, h⟩]

lemma classListAdd_not_mem (classes : List String) (cls : String) (h : cls ∉ classes) :
    classListAdd classes cls = classes ++ [cls] := by
  unfold classListAdd
  rw [if_neg h]

lemma addFormatClass_eq (classes : List String) (field : Option Bool) (hasCls noCls : String)
    (hh : hasCls ∉ classes) (hn : noCls ∉ classes) :
    addFormatClass classes field hasCls noCls = classes ++ formatClasses field hasCls noCls := by
  rcases field with _ | b
  · simp [addFormatClass, formatClasses]
  · cases b
    · show classListAdd classes noCls = classes ++ formatClasses (some false) hasCls noCls
      rw [classListAdd_not_mem classes noCls hn]
      rfl
    · show classListAdd classes hasCls = classes ++ formatClasses (some true) hasCls noCls
      rw [classListAdd_not_mem classes hasCls hh]
      rfl

lemma mem_formatClasses (field : Option Bool) (hasCls noCls x : String)
    (hx : x ∈ formatClasses field hasCls noCls) : x = hasCls ∨ x = noCls := by
  rcases field with _ | b
  · cases hx
  · cases b
    · right; simpa [formatClasses] using hx
    · left; simpa [formatClasses] using hx

/-- Claim C1, evaluated at the failing input: with all three format flags
false, a single call to detectImageFormats invokes the callback three times
(once per synchronous skip-check), not exactly once. -/
theorem all_disabled_callback_fires_three_times :
    ((detectImageFormats
        (some { avif := some false, webp := some false, jxl := some false, delay := some 0 })
        0 { avifSkipNow := 0, webpSkipNow := 0, jxlSkipNow := 0, settlements := [] }).syncFired
      ++ (detectImageFormats
        (some { avif := some false, webp := some false, jxl := some false, delay := some 0 })
        0 { avifSkipNow := 0, webpSkipNow := 0, jxlSkipNow := 0, settlements := [] }).asyncFired).length
      = 3 := by decide

/-- Claim C3, counterexample: with all three format flags false the callback
is invoked synchronously, inside the dispatching call itself, contradicting
the claim that this never happens for any config. -/
theorem all_disabled_callback_fires_synchronously :
    (detectImageFormats
        (some { avif := some false, webp := some false, jxl := some false, delay := some 7 })
        5 { avifSkipNow := 6, webpSkipNow := 6, jxlSkipNow := 6, settlements := [] }).syncFired
      ≠ [] := by decide

/-- Claim C3, amended: the callback is invoked synchronously within the
dispatching call if and only if all three format flags are false; whenever
at least one format is enabled every callback invocation happens
asynchronously, after detectImageFormats has returned. -/
theorem callback_synchronous_iff_all_formats_disabled (config : Option ImageFormatConfig)
    (start : Int) (sched : DetectionSchedule) :
    (detectImageFormats config start sched).syncFired = []
      ↔ someEnabled (resolveConfig config) = true := by
  constructor
  · intro h
    by_contra hne
    have hf : someEnabled (resolveConfig config) = false := by
      cases hval : someEnabled (resolveConfig config)
      · rfl
      · exact absurd hval hne
    have h3 : (detectImageFormats config start sched).syncFired.length = 3 := by
      rw [detect_syncFired_eq]
      exact syncPhase_snd_all_disabled _ _ _ _ hf
    rw [h] at h3
    cases h3
  · intro h
    rw [detect_syncFired_eq]
    exact syncPhase_snd_no_fire _ _ _ _ (allRequestedSettled_initial _ h)

/-- Claim C10: for every config with at least one format enabled, the
synchronous skip-checks performed during the dispatching call never invoke
the callback, so every callback invocation of the run comes from a
decode-outcome handler after the call returned. -/
theorem skip_checks_never_fire_when_some_enabled (config : Option ImageFormatConfig)
    (start : Int) (sched : DetectionSchedule)
    (h : someEnabled (resolveConfig config) = true) :
    (detectImageFormats config start sched).syncFired = [] ∧
    (detectImageFormats config start sched).syncFired
        ++ (detectImageFormats config start sched).asyncFired
      = (detectImageFormats config start sched).asyncFired := by
  have hs : (detectImageFormats config start sched).syncFired = [] := by
    rw [detect_syncFired_eq]
    exact syncPhase_snd_no_fire _ _ _ _ (allRequestedSettled_initial _ h)
  exact ⟨hs, by rw [hs]; rfl⟩

/-- Witness for C10 at a concrete enabled config and schedule. -/
theorem skip_checks_never_fire_when_some_enabled_witness :
    someEnabled (resolveConfig webpOnlyConfig) = true ∧
    ((detectImageFormats webpOnlyConfig 0 webpOnlySchedule).syncFired = [] ∧
     (detectImageFormats webpOnlyConfig 0 webpOnlySchedule).syncFired
         ++ (detectImageFormats webpOnlyConfig 0 webpOnlySchedule).asyncFired
       = (detectImageFormats webpOnlyConfig 0 webpOnlySchedule).asyncFired) :=
  ⟨by decide, skip_checks_never_fire_when_some_enabled webpOnlyConfig 0 webpOnlySchedule (by decide)⟩

/-- Claim C2: for every config with at least one format enabled and every
schedule the platform can produce for it, the callback fires exactly once:
never from a skip-check, and exactly once across the probe settlements. -/
theorem enabled_config_callback_fires_exactly_once (config : Option ImageFormatConfig)
    (start : Int) (sched : DetectionSchedule)
    (hEn : someEnabled (resolveConfig config) = true)
    (hValid : validSchedule (resolveConfig config) sched) :
    (detectImageFormats config start sched).syncFired = [] ∧
    (detectImageFormats config start sched).asyncFired.length = 1 := by
  obtain ⟨hOnly, hNodup, hCover⟩ := hValid
  refine ⟨?_, ?_⟩
  · rw [detect_syncFired_eq]
    exact syncPhase_snd_no_fire _ _ _ _ (allRequestedSettled_initial _ hEn)
  · rw [detect_asyncFired_eq]
    apply settlePhase_fires_once
    · obtain ⟨f, hf⟩ := exists_enabled_of_someEnabled _ hEn
      have hmem := hCover f hf
      intro hnil
      rw [hnil] at hmem
      cases hmem
    · exact hOnly
    · intro s _
      rw [syncPhase_fst_field]
      exact resultField_initial _
    · exact hNodup
    · intro f hf _
      exact hCover f hf

/-- Witness for C2 at a concrete enabled config and valid schedule. -/
theorem enabled_config_callback_fires_exactly_once_witness :
    (someEnabled (resolveConfig webpOnlyConfig) = true ∧
     validSchedule (resolveConfig webpOnlyConfig) webpOnlySchedule) ∧
    ((detectImageFormats webpOnlyConfig 0 webpOnlySchedule).syncFired = [] ∧
     (detectImageFormats webpOnlyConfig 0 webpOnlySchedule).asyncFired.length = 1) :=
  ⟨⟨by decide, ⟨by decide, by decide, by decide⟩⟩,
   enabled_config_callback_fires_exactly_once webpOnlyConfig 0 webpOnlySchedule
     (by decide) ⟨by decide, by decide, by decide⟩⟩

/-- Claim C4: whenever the callback is invoked, every format whose flag is
set in the config carries a definite boolean verdict in the delivered
result. -/
theorem enabled_fields_definite_when_callback_fires (config : Option ImageFormatConfig)
    (start : Int) (sched : DetectionSchedule) :
    ∀ r ∈ (detectImageFormats config start sched).syncFired
          ++ (detectImageFormats config start sched).asyncFired,
      ∀ f, enabledFlag (resolveConfig config) f = true → (resultField r f).isSome = true := by
  intro r hr f hf
  rw [detect_syncFired_eq, detect_asyncFired_eq] at hr
  rcases List.mem_append.mp hr with h | h
  · exact (allRequestedSettled_iff _ _).mp (syncPhase_snd_mem _ _ _ _ _ h).2 f hf
  · exact (allRequestedSettled_iff _ _).mp (settlePhase_snd_settled _ _ _ _ _ h) f hf

/-- Witness for C4 at a concrete run: the single fired result of the
WebP-only run carries a definite webp verdict. -/
theorem enabled_fields_definite_when_callback_fires_witness :
    (resultField { avif := none, webp := some true, jxl := none, time := 9 } ImageFormat.webp).isSome
      = true :=
  enabled_fields_definite_when_callback_fires webpOnlyConfig 0 webpOnlySchedule
    { avif := none, webp := some true, jxl := none, time := 9 } (by decide)
    ImageFormat.webp (by decide)

/-- Claim C5: a format whose flag is false is never written: its field is
null in the final result and in every result handed to the callback. -/
theorem disabled_field_stays_null (config : Option ImageFormatConfig) (start : Int)
    (sched : DetectionSchedule) (f : ImageFormat)
    (hOff : enabledFlag (resolveConfig config) f = false)
    (hOnly : ∀ s ∈ sched.settlements, enabledFlag (resolveConfig config) s.fmt = true) :
    resultField (detectImageFormats config start sched).result f = none ∧
    ∀ r ∈ (detectImageFormats config start sched).syncFired
          ++ (detectImageFormats config start sched).asyncFired,
      resultField r f = none := by
  have hne : ∀ s ∈ sched.settlements, s.fmt ≠ f := by
    intro s hs hEq
    have hx := hOnly s hs
    rw [hEq, hOff] at hx
    cases hx
  constructor
  · rw [detect_result_eq, settlePhase_fst_field_not_mem _ _ _ _ _ hne, syncPhase_fst_field]
    exact resultField_initial f
  · intro r hr
    rw [detect_syncFired_eq, detect_asyncFired_eq] at hr
    rcases List.mem_append.mp hr with h | h
    · rw [(syncPhase_snd_mem _ _ _ _ _ h).1 f]
      exact resultField_initial f
    · rw [settlePhase_snd_field_not_mem _ _ _ _ _ hne r h, syncPhase_fst_field]
      exact resultField_initial f

/-- Witness for C5 at a concrete run: avif is disabled in the WebP-only
config and its field stays null everywhere. -/
theorem disabled_field_stays_null_witness :
    (enabledFlag (resolveConfig webpOnlyConfig) ImageFormat.avif = false ∧
     (∀ s ∈ webpOnlySchedule.settlements,
        enabledFlag (resolveConfig webpOnlyConfig) s.fmt = true)) ∧
    (resultField (detectImageFormats webpOnlyConfig 0 webpOnlySchedule).result ImageFormat.avif
        = none ∧
     ∀ r ∈ (detectImageFormats webpOnlyConfig 0 webpOnlySchedule).syncFired
           ++ (detectImageFormats webpOnlyConfig 0 webpOnlySchedule).asyncFired,
       resultField r ImageFormat.avif = none) :=
  ⟨⟨by decide, by decide⟩,
   disabled_field_stays_null webpOnlyConfig 0 webpOnlySchedule ImageFormat.avif
     (by decide) (by decide)⟩

/-- Claim C6: within one run the result's time field is determined by the
running maximum of the elapsed-time measurements taken at the aggregator
checks: the final time equals the aggregate over all measurements, the
aggregate never decreases as checks accumulate, and after each check it
equals the maximum of the measurements observed so far. -/
theorem time_is_running_max_of_measurements (config : Option ImageFormatConfig) (start : Int)
    (sched : DetectionSchedule) (ds : List Int)
    (hds : ds = checkDiffs (resolveConfig config) start sched)
    (hnn : ∀ d ∈ ds, 0 ≤ d) :
    (detectImageFormats config start sched).result.time = aggregatedTime ds ∧
    (∀ n : Nat, aggregatedTime (ds.take n) ≤ aggregatedTime (ds.take (n + 1))) ∧
    (∀ n : Nat, n < ds.length →
      aggregatedTime (ds.take (n + 1)) ∈ ds.take (n + 1) ∧
      ∀ d ∈ ds.take (n + 1), d ≤ aggregatedTime (ds.take (n + 1))) := by
  refine ⟨by rw [hds]; exact detect_result_time _ _ _,
          fun n => aggregatedTime_take_mono _ n, fun n hn => ?_⟩
  refine ⟨aggregatedTime_mem _ ?_ ?_, fun d hd => foldl_maxStep_ub _ 0 d hd⟩
  · intro hnil
    have hlen : (ds.take (n + 1)).length = 0 := by rw [hnil]; rfl
    rw [List.length_take] at hlen
    omega
  · intro d hd
    exact hnn d (List.take_subset _ _ hd)

/-- Witness for C6 at a concrete run with measurements [1, 2, 9]. -/
theorem time_is_running_max_of_measurements_witness :
    (([1, 2, 9] : List Int) = checkDiffs (resolveConfig webpOnlyConfig) 0 webpOnlySchedule ∧
     ∀ d ∈ ([1, 2, 9] : List Int), 0 ≤ d) ∧
    ((detectImageFormats webpOnlyConfig 0 webpOnlySchedule).result.time
        = aggregatedTime [1, 2, 9] ∧
     (∀ n : Nat,
        aggregatedTime (([1, 2, 9] : List Int).take n)
          ≤ aggregatedTime (([1, 2, 9] : List Int).take (n + 1))) ∧
     (∀ n : Nat, n < ([1, 2, 9] : List Int).length →
        aggregatedTime (([1, 2, 9] : List Int).take (n + 1))
            ∈ ([1, 2, 9] : List Int).take (n + 1) ∧
        ∀ d ∈ ([1, 2, 9] : List Int).take (n + 1),
          d ≤ aggregatedTime (([1, 2, 9] : List Int).take (n + 1)))) :=
  ⟨⟨by decide, by decide⟩,
   time_is_running_max_of_measurements webpOnlyConfig 0 webpOnlySchedule [1, 2, 9]
     (by decide) (by decide)⟩

/-- Claim C7: omitting the config, or passing the explicit config with all
formats enabled and zero delay, resolves to the same full config and yields
the same detection run under every schedule; absent individual fields
default to enabled formats and zero delay. -/
theorem omitted_config_equivalent_to_all_enabled :
    resolveConfig none = { avif := true, webp := true, jxl := true, delay := 0 } ∧
    resolveConfig (some { avif := none, webp := none, jxl := none, delay := none })
      = { avif := true, webp := true, jxl := true, delay := 0 } ∧
    (∀ (start : Int) (sched : DetectionSchedule),
      detectImageFormats none start sched
        = detectImageFormats
            (some { avif := some true, webp := some true, jxl := some true, delay := some 0 })
            start sched) :=
  ⟨rfl, rfl, fun _ _ => rfl⟩

lemma not_mem_append_formatClasses (classes : List String) (field : Option Bool)
    (hasCls noCls x : String) (hx : x ∉ classes) (hxh : x ≠ hasCls) (hxn : x ≠ noCls) :
    x ∉ classes ++ formatClasses field hasCls noCls := by
  intro hmem
  rcases List.mem_append.mp hmem with hc | hf
  · exact hx hc
  · rcases mem_formatClasses _ _ _ _ hf with hEq | hEq
    · exact hxh hEq
    · exact hxn hEq

/-- Claim C8: starting from a body class list that carries none of the six
marker classes, the default completion handler adds, per format, exactly
the classes described by the verdict: exactly one of the two marker
classes for a definite boolean, and nothing at all for a null verdict. -/
theorem default_handler_adds_one_class_per_definite_format (classes : List String)
    (result : ImageFormatResult) (h : ∀ m ∈ markerClasses, m ∉ classes) :
    detectImageFormatsDefaultCallback classes result
      = classes ++ formatClasses result.avif ("has-avif") ("no-avif")
          ++ formatClasses result.webp ("has-webp") ("no-webp")
          ++ formatClasses result.jxl ("has-jxl") ("no-jxl") := by
  have h1 : "has-avif" ∉ classes := h _ (by simp [markerClasses])
  have h2 : "no-avif" ∉ classes := h _ (by simp [markerClasses])
  have h3 : "has-webp" ∉ classes := h _ (by simp [markerClasses])
  have h4 : "no-webp" ∉ classes := h _ (by simp [markerClasses])
  have h5 : "has-jxl" ∉ classes := h _ (by simp [markerClasses])
  have h6 : "no-jxl" ∉ classes := h _ (by simp [markerClasses])
  have hw1 : "has-webp" ∉ classes ++ formatClasses result.avif ("has-avif") ("no-avif") :=
    not_mem_append_formatClasses _ _ _ _ _ h3 (by decide) (by decide)
  have hw2 : "no-webp" ∉ classes ++ formatClasses result.avif ("has-avif") ("no-avif") :=
    not_mem_append_formatClasses _ _ _ _ _ h4 (by decide) (by decide)
  have hja : "has-jxl" ∉ classes ++ formatClasses result.avif ("has-avif") ("no-avif") :=
    not_mem_append_formatClasses _ _ _ _ _ h5 (by decide) (by decide)
  have hna : "no-jxl" ∉ classes ++ formatClasses result.avif ("has-avif") ("no-avif") :=
    not_mem_append_formatClasses _ _ _ _ _ h6 (by decide) (by decide)
  have hj1 : "has-jxl"
      ∉ classes ++ formatClasses result.avif ("has-avif") ("no-avif")
          ++ formatClasses result.webp ("has-webp") ("no-webp") :=
    not_mem_append_formatClasses _ _ _ _ _ hja (by decide) (by decide)
  have hj2 : "no-jxl"
      ∉ classes ++ formatClasses result.avif ("has-avif") ("no-avif")
          ++ formatClasses result.webp ("has-webp") ("no-webp") :=
    not_mem_append_formatClasses _ _ _ _ _ hna (by decide) (by decide)
  unfold detectImageFormatsDefaultCallback
  rw [addFormatClass_eq classes result.avif _ _ h1 h2,
      addFormatClass_eq _ result.webp _ _ hw1 hw2,
      addFormatClass_eq _ result.jxl _ _ hj1 hj2]

/-- Witness for C8 on an empty class list and a mixed result. -/
theorem default_handler_adds_one_class_per_definite_format_witness :
    (∀ m ∈ markerClasses, m ∉ ([] : List String)) ∧
    detectImageFormatsDefaultCallback []
        { avif := some true, webp := some false, jxl := none, time := 5 }
      = [] ++ formatClasses (some true) ("has-avif") ("no-avif")
          ++ formatClasses (some false) ("has-webp") ("no-webp")
          ++ formatClasses none ("has-jxl") ("no-jxl") :=
  ⟨by decide,
   default_handler_adds_one_class_per_definite_format []
     { avif := some true, webp := some false, jxl := none, time := 5 } (by decide)⟩

/-- Claim C9: assuming every timer fires no earlier than the configured
delay, every result handed to the callback has a non-negative time field,
and when at least one format is enabled the time field is at least the
configured delay. -/
theorem final_time_nonneg_and_at_least_delay (config : Option ImageFormatConfig) (start : Int)
    (sched : DetectionSchedule)
    (hTimer : ∀ s ∈ sched.settlements, (resolveConfig config).delay ≤ s.now - start) :
    ∀ r ∈ (detectImageFormats config start sched).syncFired
          ++ (detectImageFormats config start sched).asyncFired,
      0 ≤ r.time ∧
        (someEnabled (resolveConfig config) = true
          → (resolveConfig config).delay ≤ r.time) := by
  intro r hr
  rw [detect_syncFired_eq, detect_asyncFired_eq] at hr
  rcases List.mem_append.mp hr with h | h
  · constructor
    · exact syncPhase_snd_time _ _ _ _ _ h
    · intro hEn
      have hempty : (syncPhase (resolveConfig config) start sched initialResult).2 = [] :=
        syncPhase_snd_no_fire _ _ _ _ (allRequestedSettled_initial _ hEn)
      rw [hempty] at h
      cases h
  · obtain ⟨h1, s, hs, h2⟩ := settlePhase_snd_time _ _ _ _ _ h
    have h0 : (0 : Int) ≤ (syncPhase (resolveConfig config) start sched initialResult).1.time := by
      rw [syncPhase_fst_time]
      exact foldl_maxStep_init_le _ _
    exact ⟨le_trans h0 h1, fun _ => le_trans (hTimer s hs) h2⟩

/-- Witness for C9 at a concrete run: the fired result of the WebP-only run
has time 9, which is non-negative and at least the 5 ms delay. -/
theorem final_time_nonneg_and_at_least_delay_witness :
    (∀ s ∈ webpOnlySchedule.settlements,
       (resolveConfig webpOnlyConfig).delay ≤ s.now - 0) ∧
    (0 ≤ ({ avif := none, webp := some true, jxl := none, time := 9 } : ImageFormatResult).time ∧
     (someEnabled (resolveConfig webpOnlyConfig) = true
       → (resolveConfig webpOnlyConfig).delay
           ≤ ({ avif := none, webp := some true, jxl := none, time := 9 } : ImageFormatResult).time)) :=
  ⟨by decide,
   final_time_nonneg_and_at_least_delay webpOnlyConfig 0 webpOnlySchedule (by decide)
     { avif := none, webp := some true, jxl := none, time := 9 } (by decide)⟩
